import Mathlib

/-!
Verification of the Checkmate facility-assignment game core.

Shallow embedding of the JavaScript sources:
  - Facility            (src/unnamed/part_002, class Facility)
  - GameEngine          (src/unnamed/part_002, class GameEngine)
  - Male                (src/unnamed/part_000, class Male)
  - MaleSpawner         (src/js/MaleSpawner.js)
  - FacilityManager     (src/js/FacilityManager.js)
  - InputHandler        (src/js/InputHandler.js, processFacilityClick)
  - main.js             (getWeightedOutOfOrderFacility, GAME_CONFIG)

Conventions of the embedding:
  - Timestamps (Date.now()) are naturals threaded explicitly as a `now`
    argument; durations are naturals (milliseconds).
  - Rendering-only fields (position, canvas, layoutInfo) and console logging
    are omitted: they carry no game state.
  - JavaScript exceptions become `Except String`; a thrown exception aborts
    the call before any further mutation, so an `.error` result stands for
    "state unchanged".
  - The nullable collaborator references (this.gameEngine on FacilityManager,
    this.audioManager / this.storageManager on GameEngine) are modelled as
    Booleans / data carried in the state, because presence of the
    collaborator changes control flow in the source.
  - The JavaScript Map of males iterates in insertion order; it is modelled
    as a list in insertion order (ids are handed out by an increasing
    counter, so reachable lists are sorted by id).
  - Side-effect ordering inside FacilityManager.assignMaleToUrinal is made
    observable through an explicit event trace: each emitted event
    corresponds to one statement of the source, in execution order.
-/

/-- Facility kind: 'urinal' (Primary, adjacency-checked) or 'cubicle'
(Secondary, exempt). -/
inductive Kind where
  | urinal
  | cubicle
deriving DecidableEq

/-- One facility slot; mirrors the fields of class Facility
(src/unnamed/part_002 lines 6-17), minus the rendering-only position. -/
structure Facility where
  type : Kind
  index : Nat
  occupied : Bool
  occupiedBy : Option Nat
  occupiedSince : Option Nat
  usageDuration : Nat
  outOfOrder : Bool
  hasLifeReward : Bool
deriving DecidableEq

/-- The Facility constructor: fresh slot, usage duration keyed on the kind
(3000 ms urinal, 8000 ms cubicle). -/
def Facility.init (t : Kind) (i : Nat) : Facility :=
  { type := t
    index := i
    occupied := false
    occupiedBy := none
    occupiedSince := none
    usageDuration := if t = Kind.urinal then 3000 else 8000
    outOfOrder := false
    hasLifeReward := false }

/-- Facility.assign (part_002 lines 22-30): throws when occupied or out of
order, otherwise marks occupied, stores the male id, stamps the time. -/
def Facility.assign (maleId now : Nat) (f : Facility) : Except String Facility :=
  if f.occupied || f.outOfOrder then
    Except.error "Facility is not available"
  else
    Except.ok { f with occupied := true, occupiedBy := some maleId, occupiedSince := some now }

/-- Facility.release (part_002 lines 35-39). -/
def Facility.release (f : Facility) : Facility :=
  { f with occupied := false, occupiedBy := none, occupiedSince := none }

/-- Facility.isReadyForRelease (part_002 lines 44-50): occupied, stamped,
and now - occupiedSince is at least usageDuration. -/
def Facility.isReadyForRelease (now : Nat) (f : Facility) : Bool :=
  match f.occupiedSince with
  | none => false
  | some t => f.occupied && decide (now - t ≥ f.usageDuration)

/-- Facility.isAvailable (part_002 lines 55-57). -/
def Facility.isAvailable (f : Facility) : Bool :=
  !f.occupied && !f.outOfOrder

/-- Facility.setOutOfOrder (part_002 lines 62-68): sets the flag; setting it
while occupied forces a release. -/
def Facility.setOutOfOrder (flag : Bool) (f : Facility) : Facility :=
  let f1 := { f with outOfOrder := flag }
  if flag && f1.occupied then f1.release else f1

/-- Occupant state machine tags ('waiting', 'assigned', 'using'). -/
inductive MaleState where
  | waiting
  | assigned
  | using
deriving DecidableEq

/-- One occupant; mirrors class Male (src/unnamed/part_000), minus the
rendering-only position. -/
structure Male where
  id : Nat
  spawnTime : Nat
  maxWaitTime : Nat
  assignedFacility : Option Nat
  facilityType : Option Kind
  state : MaleState
deriving DecidableEq

/-- The Male constructor: waiting, 10000 ms default budget. -/
def Male.init (id now : Nat) : Male :=
  { id := id
    spawnTime := now
    maxWaitTime := 10000
    assignedFacility := none
    facilityType := none
    state := MaleState.waiting }

/-- Male.getTimeRemaining (part_000): full budget once not waiting, else
max 0 (maxWaitTime - elapsed); natural subtraction already truncates. -/
def Male.getTimeRemaining (now : Nat) (m : Male) : Nat :=
  if m.state ≠ MaleState.waiting then m.maxWaitTime
  else m.maxWaitTime - (now - m.spawnTime)

/-- Male.hasTimedOut (part_000): waiting and no time remaining. -/
def Male.hasTimedOut (now : Nat) (m : Male) : Bool :=
  decide (m.state = MaleState.waiting) && decide (m.getTimeRemaining now = 0)

/-- Male.assignToFacility (part_000): records the facility, state becomes
'assigned'. -/
def Male.assignToFacility (t : Kind) (i : Nat) (m : Male) : Male :=
  { m with state := MaleState.assigned, facilityType := some t, assignedFacility := some i }

/-- Male.startUsing (part_000): state becomes 'using'. -/
def Male.startUsing (m : Male) : Male :=
  { m with state := MaleState.using }

/-- Session status ('menu', 'playing', 'paused', 'gameOver'). -/
inductive Status where
  | menu
  | playing
  | paused
  | gameOver
deriving DecidableEq

/-- Game-over reason ('timeout', 'adjacency'). -/
inductive Reason where
  | timeout
  | adjacency
deriving DecidableEq

/-- GAME_CONFIG.minSpawnRate (main.js). -/
def minSpawnRate : Nat := 800

/-- GAME_CONFIG.spawnRateDecrease (main.js). -/
def spawnRateDecrease : Nat := 150

/-- The GameEngine session record (part_002 lines 105-122) together with the
presence flags of its nullable collaborators. `audioPresent` models
`this.audioManager !== null`, `storagePresent` models
`this.storageManager !== null`, and `storedHighScore` the value the
persistence collaborator currently holds. Lives are an integer: the source
decrements past zero. -/
structure EngineState where
  status : Status
  score : Nat
  highScore : Nat
  isNewHighScore : Bool
  difficulty : Nat
  lives : Int
  malesServiced : Nat
  gameOverReason : Option Reason
  spawnRate : Nat
  audioPresent : Bool
  storagePresent : Bool
  storedHighScore : Nat
deriving DecidableEq

/-- GameEngine.checkAndUpdateHighScore (part_002 lines 402-423). -/
def checkAndUpdateHighScore (s : EngineState) : EngineState :=
  let previous := if s.storagePresent then s.storedHighScore else s.highScore
  if s.score > previous ∧ s.score > 0 then
    { s with highScore := s.score
             isNewHighScore := true
             storedHighScore := if s.storagePresent then s.score else s.storedHighScore }
  else
    { s with isNewHighScore := false, highScore := previous }

/-- GameEngine.endGame (part_002 lines 331-343): enters gameOver, records
the reason, runs the high-score comparison. -/
def endGame (reason : Reason) (s : EngineState) : EngineState :=
  checkAndUpdateHighScore { s with status := Status.gameOver, gameOverReason := some reason }

/-- GameEngine.loseLife (part_002 lines 300-313): decrements lives, then
ends the game when lives has reached 0 or below. There is no guard on the
current status. -/
def loseLife (reason : Reason) (s : EngineState) : EngineState :=
  let s1 := { s with lives := s.lives - 1 }
  if s1.lives ≤ 0 then endGame reason s1 else s1

/-- GameEngine.gainLife (part_002 lines 318-326). -/
def gainLife (s : EngineState) : EngineState :=
  { s with lives := s.lives + 1 }

/-- GameEngine.updateDifficulty (part_002 lines 363-383): bumps difficulty,
and lowers the spawn interval by spawnRateDecrease, floored at
minSpawnRate. -/
def updateDifficulty (s : EngineState) : EngineState :=
  let s1 := { s with difficulty := s.difficulty + 1 }
  { s1 with spawnRate := max minSpawnRate (s1.spawnRate - spawnRateDecrease) }

/-- GameEngine.incrementScore (part_002 lines 348-358): bumps score and
malesServiced; the milestone branch (sound + updateDifficulty) runs only
when the new score is a multiple of 10 AND the audio collaborator is
present — the source condition is
(this.state.score % 10 === 0 && this.audioManager). -/
def incrementScore (s : EngineState) : EngineState :=
  let s1 := { s with score := s.score + 1, malesServiced := s.malesServiced + 1 }
  if s1.score % 10 == 0 && s1.audioPresent then updateDifficulty s1 else s1

/-- Events observable during FacilityManager.assignMaleToUrinal, one per
statement of the source, in execution order: the gainLife call of the
reward branch, the urinal.assign commit, the isUrinalAdjacent evaluation
(with its result), and the setTimeout scheduling of the delayed adjacency
life penalty (delay in ms). -/
inductive Ev where
  | gainLifeEv
  | occupancyCommitted
  | adjacencyChecked (violation : Bool)
  | scheduleLoseLife (delay : Nat) (reason : Reason)
deriving DecidableEq

/-- The whole mutable world: the GameEngine session record, the
FacilityManager's two facility arrays, and the MaleSpawner's male Map
(as an insertion-ordered list) and counters. `hasGameEngine` models the
nullable gameEngine back-reference held by FacilityManager
(null checks guard every engine access in the source). `defaultWaitTime`
is MaleSpawner.defaultWaitTime (set by main.js, undefined otherwise). -/
structure GState where
  engine : EngineState
  urinals : List Facility
  cubicles : List Facility
  males : List Male
  nextMaleId : Nat
  spawnerRate : Nat
  lastSpawnTime : Nat
  timeSinceLastSpawn : Nat
  defaultWaitTime : Option Nat
  hasGameEngine : Bool
deriving DecidableEq

/-- FacilityManager.isUrinalAdjacent (FacilityManager.js lines 231-243):
either immediate neighbour of the index is occupied. -/
def isUrinalAdjacent (index : Nat) (urinals : List Facility) : Bool :=
  (decide (index > 0) && (((urinals.get? (index - 1)).map Facility.occupied).getD false))
  || (decide (index < urinals.length - 1)
      && (((urinals.get? (index + 1)).map Facility.occupied).getD false))

/-- FacilityManager.assignMaleToUrinal (FacilityManager.js lines 138-171).
Returns the new world, the event trace, and the returned Boolean. Order of
the source: index check, availability check, reward consumption
(gainLife, clear flag — gated on the gameEngine reference), urinal.assign,
adjacency check on the committed configuration, and, on violation (and
with a gameEngine), a 500 ms delayed loseLife('adjacency') is scheduled —
never an immediate penalty, never a rejection. -/
def assignMaleToUrinal (maleId urinalIndex now : Nat) (g : GState) :
    Except String (GState × List Ev × Bool) :=
  match g.urinals.get? urinalIndex with
  | none => Except.error "Invalid urinal index"
  | some u =>
    if !u.isAvailable then Except.error "Urinal is not available"
    else
      let consume := u.hasLifeReward && g.hasGameEngine
      let u1 := if consume then { u with hasLifeReward := false } else u
      let g1 :=
        if consume then
          { g with engine := gainLife g.engine, urinals := g.urinals.set urinalIndex u1 }
        else g
      match u1.assign maleId now with
      | Except.error e => Except.error e
      | Except.ok u2 =>
        let g2 := { g1 with urinals := g1.urinals.set urinalIndex u2 }
        let violation := isUrinalAdjacent urinalIndex g2.urinals
        let trace :=
          (if consume then [Ev.gainLifeEv] else [])
          ++ [Ev.occupancyCommitted, Ev.adjacencyChecked violation]
          ++ (if violation && g.hasGameEngine then
                [Ev.scheduleLoseLife 500 Reason.adjacency]
              else [])
        Except.ok (g2, trace, true)

/-- FacilityManager.assignMaleToCubicle (FacilityManager.js lines 176-195):
same shape without the adjacency rule. -/
def assignMaleToCubicle (maleId cubicleIndex now : Nat) (g : GState) :
    Except String (GState × List Ev × Bool) :=
  match g.cubicles.get? cubicleIndex with
  | none => Except.error "Invalid cubicle index"
  | some c =>
    if !c.isAvailable then Except.error "Cubicle is not available"
    else
      let consume := c.hasLifeReward && g.hasGameEngine
      let c1 := if consume then { c with hasLifeReward := false } else c
      let g1 :=
        if consume then
          { g with engine := gainLife g.engine, cubicles := g.cubicles.set cubicleIndex c1 }
        else g
      match c1.assign maleId now with
      | Except.error e => Except.error e
      | Except.ok c2 =>
        let g2 := { g1 with cubicles := g1.cubicles.set cubicleIndex c2 }
        let trace :=
          (if consume then [Ev.gainLifeEv] else []) ++ [Ev.occupancyCommitted]
        Except.ok (g2, trace, true)

/-- FacilityManager.setFacilityOutOfOrder (FacilityManager.js lines
292-298): in range, forwards setOutOfOrder(true) to the facility; nothing
else is touched (in particular neither the engine nor the male set). -/
def setFacilityOutOfOrder (t : Kind) (index : Nat) (g : GState) : GState :=
  match t with
  | Kind.urinal =>
    match g.urinals.get? index with
    | some u => { g with urinals := g.urinals.set index (u.setOutOfOrder true) }
    | none => g
  | Kind.cubicle =>
    match g.cubicles.get? index with
    | some c => { g with cubicles := g.cubicles.set index (c.setOutOfOrder true) }
    | none => g

/-- FacilityManager.restoreFacility (FacilityManager.js lines 303-309). -/
def restoreFacility (t : Kind) (index : Nat) (g : GState) : GState :=
  match t with
  | Kind.urinal =>
    match g.urinals.get? index with
    | some u => { g with urinals := g.urinals.set index (u.setOutOfOrder false) }
    | none => g
  | Kind.cubicle =>
    match g.cubicles.get? index with
    | some c => { g with cubicles := g.cubicles.set index (c.setOutOfOrder false) }
    | none => g

/-- The per-facility reset step of FacilityManager.reset (FacilityManager.js
lines 338-348): release() then setOutOfOrder(false). -/
def resetFacility (f : Facility) : Facility :=
  f.release.setOutOfOrder false

/-- MaleSpawner.removeMale (MaleSpawner.js lines 129-134): Map.delete of the
entry keyed by the id. -/
def removeMale (maleId : Nat) (males : List Male) : List Male :=
  males.filter (fun m => m.id != maleId)

/-- MaleSpawner.checkForTimeout (MaleSpawner.js lines 147-155): first male
in Map iteration order (= insertion order) that has timed out. -/
def checkForTimeout (now : Nat) (males : List Male) : Option Male :=
  males.find? (fun m => m.hasTimedOut now)

/-- MaleSpawner.getMalesInQueue (MaleSpawner.js lines 95-97). -/
def getMalesInQueue (males : List Male) : List Male :=
  males.filter (fun m => decide (m.state = MaleState.waiting))

/-- MaleSpawner.assignMale (MaleSpawner.js lines 109-124): the male must
exist and be waiting; it then goes assignToFacility (state 'assigned')
immediately followed by startUsing (state 'using'). -/
def spawnerAssignMale (maleId : Nat) (t : Kind) (index : Nat) (g : GState) :
    Except String GState :=
  match g.males.find? (fun m => m.id == maleId) with
  | none => Except.error "Male not found"
  | some m =>
    if m.state ≠ MaleState.waiting then Except.error "Male is not waiting"
    else
      Except.ok { g with males := g.males.map (fun x =>
        if x.id == maleId then (x.assignToFacility t index).startUsing else x) }

/-- MaleSpawner.spawnMale (MaleSpawner.js lines 37-54): new Male with the
next id (budget overridden by defaultWaitTime when configured), appended
to the Map. -/
def spawnMale (now : Nat) (g : GState) : GState :=
  let m := Male.init g.nextMaleId now
  let m :=
    match g.defaultWaitTime with
    | some w => { m with maxWaitTime := w }
    | none => m
  { g with males := g.males ++ [m], nextMaleId := g.nextMaleId + 1, lastSpawnTime := now }

/-- GameEngine.checkGameOver (part_002 lines 281-295): when any male exists,
look for the first timed-out one; if found, lose one life with reason
'timeout', remove exactly that male, and return — at most one timeout is
processed per call. -/
def checkGameOver (now : Nat) (g : GState) : GState :=
  if g.males.length > 0 then
    match checkForTimeout now g.males with
    | some m =>
      { g with engine := loseLife Reason.timeout g.engine, males := removeMale m.id g.males }
    | none => g
  else g

/-- GameEngine.reset (part_002 lines 208-228) combined with
FacilityManager.reset (release + setOutOfOrder(false) on every facility —
the hasLifeReward flag is not touched) and MaleSpawner.reset
(MaleSpawner.js lines 175-182: clear the Map, id counter back to 1,
timers to 0, spawner rate to the literal 3000). -/
def gameReset (g : GState) : GState :=
  { g with
    engine := { g.engine with
      score := 0
      isNewHighScore := false
      difficulty := 1
      lives := 3
      malesServiced := 0
      gameOverReason := none
      spawnRate := 2000 }
    urinals := g.urinals.map resetFacility
    cubicles := g.cubicles.map resetFacility
    males := []
    nextMaleId := 1
    lastSpawnTime := 0
    timeSinceLastSpawn := 0
    spawnerRate := 3000 }

/-- The urinal pass of FacilityManager.update (FacilityManager.js lines
248-268), iterating the array snapshot with its index: every urinal ready
for release is released, its male removed from the spawner, and the score
incremented (which may ripple into a difficulty milestone). Engine access
is guarded by the gameEngine reference as in the source. -/
def sweepUrinalStep (now i : Nat) (u : Facility) (g : GState) : GState :=
  if u.isReadyForRelease now then
    let g2 := { g with urinals := g.urinals.set i u.release }
    let g3 :=
      if g2.hasGameEngine then
        { g2 with males :=
            match u.occupiedBy with
            | some maleId => removeMale maleId g2.males
            | none => g2.males }
      else g2
    if g3.hasGameEngine then { g3 with engine := incrementScore g3.engine } else g3
  else g

/-- Iteration of the urinal pass over the array snapshot, carrying the
array index. -/
def sweepUrinals (now : Nat) : Nat → List Facility → GState → GState
  | _, [], g => g
  | i, u :: rest, g => sweepUrinals now (i + 1) rest (sweepUrinalStep now i u g)

/-- The cubicle pass of FacilityManager.update (FacilityManager.js lines
270-287): same sweep without the score increment. -/
def sweepCubicleStep (now i : Nat) (c : Facility) (g : GState) : GState :=
  if c.isReadyForRelease now then
    let g2 := { g with cubicles := g.cubicles.set i c.release }
    if g2.hasGameEngine then
      { g2 with males :=
          match c.occupiedBy with
          | some maleId => removeMale maleId g2.males
          | none => g2.males }
    else g2
  else g

/-- Iteration of the cubicle pass over the array snapshot, carrying the
array index. -/
def sweepCubicles (now : Nat) : Nat → List Facility → GState → GState
  | _, [], g => g
  | i, c :: rest, g => sweepCubicles now (i + 1) rest (sweepCubicleStep now i c g)

/-- FacilityManager.update (FacilityManager.js lines 248-287): the
auto-release sweep, urinals first, then cubicles. -/
def facilityUpdate (now : Nat) (g : GState) : GState :=
  sweepCubicles now 0 (sweepUrinals now 0 g.urinals g).cubicles
    (sweepUrinals now 0 g.urinals g)

/-- InputHandler.processFacilityClick (InputHandler.js lines 266-322),
after hit-testing resolved the click to a facility (kind, index):
validateFacilityAssignment (availability only — adjacency is deliberately
not pre-blocked), silent return when no male is waiting, otherwise the
FIRST waiting male of the queue is assigned to the facility and then
transitioned in the spawner; a thrown assignment error is caught and
leaves the state as the manager left it (for an unavailable facility,
unchanged). -/
def processFacilityClick (t : Kind) (index : Nat) (now : Nat) (g : GState) : GState :=
  let fac? :=
    match t with
    | Kind.urinal => g.urinals.get? index
    | Kind.cubicle => g.cubicles.get? index
  match fac? with
  | none => g
  | some f =>
    if !f.isAvailable then g
    else
      match getMalesInQueue g.males with
      | [] => g
      | nextMale :: _ =>
        let assigned :=
          match t with
          | Kind.urinal => assignMaleToUrinal nextMale.id index now g
          | Kind.cubicle => assignMaleToCubicle nextMale.id index now g
        match assigned with
        | Except.error _ => g
        | Except.ok (g1, _, success) =>
          if success then
            match spawnerAssignMale nextMale.id t index g1 with
            | Except.ok g2 => g2
            | Except.error _ => g1
          else g1

/-- A disruption target: facility kind and index, as pushed onto the
weighted array of getWeightedOutOfOrderFacility. -/
structure Target where
  kind : Kind
  index : Nat
deriving DecidableEq

/-- The per-urinal weight of getWeightedOutOfOrderFacility (main.js lines
241-267): slots whose 1-based number is even get 3 (else 1) at difficulty
at most 5, and 1 (else 3) above. -/
def urinalDisruptionWeight (difficulty index : Nat) : Nat :=
  let isEven := (index + 1) % 2 == 0
  if difficulty ≤ 5 then (if isEven then 3 else 1)
  else (if isEven then 1 else 3)

/-- The urinal pass of getWeightedOutOfOrderFacility (main.js lines
249-267), iterating with the array index: an out-of-order or occupied
urinal contributes nothing, every other urinal is pushed weight-many
times. -/
def weightedUrinalTargets (difficulty : Nat) : Nat → List Facility → List Target
  | _, [] => []
  | i, u :: rest =>
    (if u.outOfOrder || u.occupied then []
     else List.replicate (urinalDisruptionWeight difficulty i) { kind := Kind.urinal, index := i })
    ++ weightedUrinalTargets difficulty (i + 1) rest

/-- The cubicle pass of getWeightedOutOfOrderFacility (main.js lines
270-276): flat weight 2 for every cubicle not out of order or occupied. -/
def weightedCubicleTargets : Nat → List Facility → List Target
  | _, [] => []
  | i, c :: rest =>
    (if c.outOfOrder || c.occupied then []
     else List.replicate 2 { kind := Kind.cubicle, index := i })
    ++ weightedCubicleTargets (i + 1) rest

/-- The weighted candidate array of getWeightedOutOfOrderFacility (main.js
lines 241-280): urinal entries then cubicle entries. -/
def weightedTargets (difficulty : Nat) (urinals cubicles : List Facility) : List Target :=
  weightedUrinalTargets difficulty 0 urinals ++ weightedCubicleTargets 0 cubicles

/-- getWeightedOutOfOrderFacility (main.js lines 241-280): null when the
weighted array is empty, else the entry at the random index.
Math.floor(Math.random() * length) is a uniform draw over positions
0..length-1; the draw is modelled by an arbitrary natural reduced modulo
the array length. -/
def getWeightedOutOfOrderFacility (difficulty draw : Nat)
    (urinals cubicles : List Facility) : Option Target :=
  let weighted := weightedTargets difficulty urinals cubicles
  if weighted.isEmpty then none
  else weighted.get? (draw % weighted.length)

/-! ## Example states used by concrete counterexamples and witnesses -/

/-- An engine record of a session that has just ended (the terminal
transition has happened: status gameOver, lives 0). Reachable, e.g., via a
third consecutive timeout from 3 lives. -/
def engineAtGameOver : EngineState :=
  { status := Status.gameOver
    score := 4
    highScore := 4
    isNewHighScore := true
    difficulty := 1
    lives := 0
    malesServiced := 4
    gameOverReason := some Reason.timeout
    spawnRate := 2000
    audioPresent := true
    storagePresent := true
    storedHighScore := 4 }

/-- An engine record one point short of the first milestone, with no audio
collaborator attached (audioManager null). -/
def engineAtNineNoAudio : EngineState :=
  { status := Status.playing
    score := 9
    highScore := 0
    isNewHighScore := false
    difficulty := 1
    lives := 3
    malesServiced := 9
    gameOverReason := none
    spawnRate := 2000
    audioPresent := false
    storagePresent := true
    storedHighScore := 0 }

/-- C2 counterexample. The claim says that once the session status is
GameOver every further loseLife call leaves lives and the session state
unchanged. At the concrete post-game-over state above, a further
loseLife('adjacency') — exactly what the delayed adjacency penalty timer
delivers — changes the state: lives drop from 0 to -1. -/
theorem loseLife_after_gameOver_not_ignored :
    engineAtGameOver.status = Status.gameOver ∧
    (loseLife Reason.adjacency engineAtGameOver).lives ≠ engineAtGameOver.lives ∧
    loseLife Reason.adjacency engineAtGameOver ≠ engineAtGameOver := by
  refine ⟨rfl, by decide, by decide⟩

/-- C2 amended: GameEngine.loseLife has no status guard. Every call
decrements lives by exactly 1 — also after the terminal transition — and
the session is in GameOver afterwards exactly when the decremented lives
are at most 0 (in which case the given reason is recorded); when the
decremented lives stay positive, the state changes only in the lives
field. -/
theorem loseLife_unguarded (s : EngineState) (r : Reason) :
    (loseLife r s).lives = s.lives - 1 ∧
    (loseLife r s).status = (if s.lives - 1 ≤ 0 then Status.gameOver else s.status) ∧
    (s.lives - 1 ≤ 0 → (loseLife r s).gameOverReason = some r) ∧
    (¬ s.lives - 1 ≤ 0 → loseLife r s = { s with lives := s.lives - 1 }) := by
  unfold loseLife endGame checkAndUpdateHighScore
  by_cases h : s.lives - 1 ≤ 0
  · simp only [h, ite_true, if_pos, not_true_eq_false, IsEmpty.forall_iff, and_true,
      forall_const]
    refine ⟨?_, ?_, ?_⟩ <;> (split <;> (try split) <;> rfl)
  · simp [h]

/-- C2 amended, witness: at the concrete game-over state, the reason of a
post-game-over loseLife('adjacency') is overwritten to 'adjacency'. -/
theorem loseLife_unguarded_witness :
    (loseLife Reason.adjacency engineAtGameOver).gameOverReason = some Reason.adjacency :=
  (loseLife_unguarded engineAtGameOver Reason.adjacency).2.2.1 (by decide)

/-- C3: the claim says the milestone difficulty bump fires regardless of
whether the audio collaborator is present, but the source guards the whole
milestone branch with (score % 10 === 0 && this.audioManager): at score 9
with no audio collaborator, incrementScore reaches score 10 and leaves
difficulty and spawn rate untouched, while the identical state with the
audio collaborator present gets difficulty 2 and spawn rate
max(800, 2000 - 150) = 1850. -/
theorem milestone_gated_on_audio :
    (incrementScore engineAtNineNoAudio).score = 10 ∧
    (incrementScore engineAtNineNoAudio).difficulty = 1 ∧
    (incrementScore engineAtNineNoAudio).spawnRate = 2000 ∧
    (incrementScore { engineAtNineNoAudio with audioPresent := true }).difficulty = 2 ∧
    (incrementScore { engineAtNineNoAudio with audioPresent := true }).spawnRate = 1850 := by
  refine ⟨rfl, rfl, rfl, rfl, ?_⟩
  decide

/-- Occupied urinal slot 0 of the example session (male 1 inside since time
100, configured usage 4000 ms). -/
def exUrinal0 : Facility :=
  { type := Kind.urinal
    index := 0
    occupied := true
    occupiedBy := some 1
    occupiedSince := some 100
    usageDuration := 4000
    outOfOrder := false
    hasLifeReward := false }

/-- Free urinal slot 1 of the example session, carrying a life reward. -/
def exUrinal1 : Facility :=
  { type := Kind.urinal
    index := 1
    occupied := false
    occupiedBy := none
    occupiedSince := none
    usageDuration := 4000
    outOfOrder := false
    hasLifeReward := true }

/-- Free urinal slot 2 of the example session. -/
def exUrinal2 : Facility :=
  { type := Kind.urinal
    index := 2
    occupied := false
    occupiedBy := none
    occupiedSince := none
    usageDuration := 4000
    outOfOrder := false
    hasLifeReward := false }

/-- Free cubicle slot 0 of the example session. -/
def exCubicle0 : Facility :=
  { type := Kind.cubicle
    index := 0
    occupied := false
    occupiedBy := none
    occupiedSince := none
    usageDuration := 10000
    outOfOrder := false
    hasLifeReward := false }

/-- Male 1 of the example session: using urinal 0. -/
def exMale1 : Male :=
  { id := 1
    spawnTime := 0
    maxWaitTime := 12000
    assignedFacility := some 0
    facilityType := some Kind.urinal
    state := MaleState.using }

/-- Male 2 of the example session: waiting since time 50. -/
def exMale2 : Male :=
  { id := 2
    spawnTime := 50
    maxWaitTime := 12000
    assignedFacility := none
    facilityType := none
    state := MaleState.waiting }

/-- Male 3 of the example session: waiting since time 60. -/
def exMale3 : Male :=
  { id := 3
    spawnTime := 60
    maxWaitTime := 12000
    assignedFacility := none
    facilityType := none
    state := MaleState.waiting }

/-- A small mid-session world: urinal 0 occupied by male 1, urinal 1 free
with a reward, urinal 2 free, cubicle 0 free; males 2 and 3 waiting. -/
def exSession : GState :=
  { engine :=
      { status := Status.playing
        score := 3
        highScore := 7
        isNewHighScore := false
        difficulty := 1
        lives := 3
        malesServiced := 3
        gameOverReason := none
        spawnRate := 2000
        audioPresent := true
        storagePresent := true
        storedHighScore := 7 }
    urinals := [exUrinal0, exUrinal1, exUrinal2]
    cubicles := [exCubicle0]
    males := [exMale1, exMale2, exMale3]
    nextMaleId := 4
    spawnerRate := 2000
    lastSpawnTime := 60
    timeSinceLastSpawn := 40
    defaultWaitTime := some 12000
    hasGameEngine := true }

/-- C7: Facility.assign fails exactly when the target is occupied or out of
order; the failure is a throw raised before any mutation (at the
InputHandler boundary the caught failure leaves the whole world unchanged,
so no life is gained either); on success the facility is marked occupied,
the occupancy time is stamped, and the occupant id stored, with every
other field (including the reward flag) untouched. -/
theorem facilityAssign_contract :
    (∀ (f : Facility) (maleId now : Nat),
        (∃ e, Facility.assign maleId now f = Except.error e) ↔
          (f.occupied = true ∨ f.outOfOrder = true)) ∧
    (∀ (f : Facility) (maleId now : Nat) (f2 : Facility),
        Facility.assign maleId now f = Except.ok f2 →
          f.occupied = false ∧ f.outOfOrder = false ∧
          f2 = { f with occupied := true, occupiedBy := some maleId,
                        occupiedSince := some now }) ∧
    (∀ (g : GState) (t : Kind) (index now : Nat) (f : Facility),
        (match t with
         | Kind.urinal => g.urinals.get? index
         | Kind.cubicle => g.cubicles.get? index) = some f →
        f.isAvailable = false →
        processFacilityClick t index now g = g) := by
  refine ⟨?_, ?_, ?_⟩
  · intro f maleId now
    unfold Facility.assign
    by_cases h : (f.occupied || f.outOfOrder) = true
    · rw [Bool.or_eq_true] at h
      rcases h with h | h <;> simp [h]
    · rw [Bool.or_eq_true] at h
      push_neg at h
      simp [h.1, h.2]
  · intro f maleId now f2 hok
    unfold Facility.assign at hok
    by_cases h : (f.occupied || f.outOfOrder) = true
    · rw [if_pos h] at hok
      exact absurd hok (by simp)
    · rw [if_neg h] at hok
      rw [Bool.or_eq_true] at h
      push_neg at h
      injection hok with h2
      exact ⟨Bool.eq_false_iff.mpr h.1, Bool.eq_false_iff.mpr h.2, h2.symm⟩
  · intro g t index now f hget havail
    cases t <;>
      · unfold processFacilityClick
        simp only at hget
        rw [hget]
        simp [havail]

/-- C7 witness: clicking the occupied urinal 0 of the example session is a
rejected, state-preserving no-op. -/
theorem facilityAssign_contract_witness :
    processFacilityClick Kind.urinal 0 200 exSession = exSession :=
  facilityAssign_contract.2.2 exSession Kind.urinal 0 200 exUrinal0 rfl rfl

/-- Setting position length-of-prefix in a prefix-plus-cons list replaces
the head of the suffix. -/
lemma set_len_append {α : Type _} (pre : List α) (u v : α) (rest : List α) :
    (pre ++ u :: rest).set pre.length v = pre ++ v :: rest := by
  induction pre with
  | nil => rfl
  | cons a pre ih => simpa using ih

/-- The urinal sweep step only touches the urinal at its index. -/
lemma sweepUrinalStep_urinals (now i : Nat) (u : Facility) (g : GState) :
    (sweepUrinalStep now i u g).urinals =
      if u.isReadyForRelease now then g.urinals.set i u.release else g.urinals := by
  by_cases hr : u.isReadyForRelease now <;>
    cases hge : g.hasGameEngine <;>
      cases hob : u.occupiedBy <;>
        simp [sweepUrinalStep, hr, hge, hob]

/-- The urinal sweep step leaves the cubicles alone. -/
lemma sweepUrinalStep_cubicles (now i : Nat) (u : Facility) (g : GState) :
    (sweepUrinalStep now i u g).cubicles = g.cubicles := by
  by_cases hr : u.isReadyForRelease now <;>
    cases hge : g.hasGameEngine <;>
      cases hob : u.occupiedBy <;>
        simp [sweepUrinalStep, hr, hge, hob]

/-- The cubicle sweep step only touches the cubicle at its index. -/
lemma sweepCubicleStep_cubicles (now i : Nat) (c : Facility) (g : GState) :
    (sweepCubicleStep now i c g).cubicles =
      if c.isReadyForRelease now then g.cubicles.set i c.release else g.cubicles := by
  by_cases hr : c.isReadyForRelease now <;>
    cases hge : g.hasGameEngine <;>
      cases hob : c.occupiedBy <;>
        simp [sweepCubicleStep, hr, hge, hob]

/-- The cubicle sweep step leaves the urinals alone. -/
lemma sweepCubicleStep_urinals (now i : Nat) (c : Facility) (g : GState) :
    (sweepCubicleStep now i c g).urinals = g.urinals := by
  by_cases hr : c.isReadyForRelease now <;>
    cases hge : g.hasGameEngine <;>
      cases hob : c.occupiedBy <;>
        simp [sweepCubicleStep, hr, hge, hob]

/-- The urinal sweep never changes the cubicle list. -/
lemma sweepUrinals_cubicles (now : Nat) :
    ∀ (rest : List Facility) (i : Nat) (g : GState),
      (sweepUrinals now i rest g).cubicles = g.cubicles := by
  intro rest
  induction rest with
  | nil => intro i g; rfl
  | cons u rest ih =>
    intro i g
    calc (sweepUrinals now i (u :: rest) g).cubicles
        = (sweepUrinals now (i + 1) rest (sweepUrinalStep now i u g)).cubicles := rfl
      _ = g.cubicles := by rw [ih, sweepUrinalStep_cubicles]

/-- The cubicle sweep never changes the urinal list. -/
lemma sweepCubicles_urinals (now : Nat) :
    ∀ (rest : List Facility) (i : Nat) (g : GState),
      (sweepCubicles now i rest g).urinals = g.urinals := by
  intro rest
  induction rest with
  | nil => intro i g; rfl
  | cons c rest ih =>
    intro i g
    calc (sweepCubicles now i (c :: rest) g).urinals
        = (sweepCubicles now (i + 1) rest (sweepCubicleStep now i c g)).urinals := rfl
      _ = g.urinals := by rw [ih, sweepCubicleStep_urinals]

/-- Sweeping the urinal snapshot releases exactly the urinals that are
ready, pointwise. -/
lemma sweepUrinals_urinals (now : Nat) :
    ∀ (rest pre : List Facility) (i : Nat) (g : GState),
      i = pre.length → g.urinals = pre ++ rest →
      (sweepUrinals now i rest g).urinals =
        pre ++ rest.map (fun u => if u.isReadyForRelease now then u.release else u) := by
  intro rest
  induction rest with
  | nil =>
    intro pre i g hi hg
    simpa [sweepUrinals] using hg
  | cons u rest ih =>
    intro pre i g hi hg
    have hstep : (sweepUrinalStep now i u g).urinals =
        (pre ++ [if u.isReadyForRelease now then u.release else u]) ++ rest := by
      rw [sweepUrinalStep_urinals]
      by_cases hr : u.isReadyForRelease now
      · rw [if_pos hr, if_pos hr, hg, hi, set_len_append]
        simp
      · rw [if_neg hr, if_neg hr, hg]
        simp
    have hlen : i + 1 = (pre ++ [if u.isReadyForRelease now then u.release else u]).length := by
      simp [hi]
    have hrec := ih (pre ++ [if u.isReadyForRelease now then u.release else u]) (i + 1)
        (sweepUrinalStep now i u g) hlen hstep
    calc (sweepUrinals now i (u :: rest) g).urinals
        = (sweepUrinals now (i + 1) rest (sweepUrinalStep now i u g)).urinals := rfl
      _ = _ := by rw [hrec]; simp

/-- Sweeping the cubicle snapshot releases exactly the cubicles that are
ready, pointwise. -/
lemma sweepCubicles_cubicles (now : Nat) :
    ∀ (rest pre : List Facility) (i : Nat) (g : GState),
      i = pre.length → g.cubicles = pre ++ rest →
      (sweepCubicles now i rest g).cubicles =
        pre ++ rest.map (fun c => if c.isReadyForRelease now then c.release else c) := by
  intro rest
  induction rest with
  | nil =>
    intro pre i g hi hg
    simpa [sweepCubicles] using hg
  | cons c rest ih =>
    intro pre i g hi hg
    have hstep : (sweepCubicleStep now i c g).cubicles =
        (pre ++ [if c.isReadyForRelease now then c.release else c]) ++ rest := by
      rw [sweepCubicleStep_cubicles]
      by_cases hr : c.isReadyForRelease now
      · rw [if_pos hr, if_pos hr, hg, hi, set_len_append]
        simp
      · rw [if_neg hr, if_neg hr, hg]
        simp
    have hlen : i + 1 = (pre ++ [if c.isReadyForRelease now then c.release else c]).length := by
      simp [hi]
    have hrec := ih (pre ++ [if c.isReadyForRelease now then c.release else c]) (i + 1)
        (sweepCubicleStep now i c g) hlen hstep
    calc (sweepCubicles now i (c :: rest) g).cubicles
        = (sweepCubicles now (i + 1) rest (sweepCubicleStep now i c g)).cubicles := rfl
      _ = _ := by rw [hrec]; simp

/-- FacilityManager.update releases exactly the ready urinals. -/
lemma facilityUpdate_urinals (now : Nat) (g : GState) :
    (facilityUpdate now g).urinals =
      g.urinals.map (fun u => if u.isReadyForRelease now then u.release else u) := by
  unfold facilityUpdate
  rw [sweepCubicles_urinals]
  simpa using sweepUrinals_urinals now g.urinals [] 0 g rfl rfl

/-- FacilityManager.update releases exactly the ready cubicles. -/
lemma facilityUpdate_cubicles (now : Nat) (g : GState) :
    (facilityUpdate now g).cubicles =
      g.cubicles.map (fun c => if c.isReadyForRelease now then c.release else c) := by
  unfold facilityUpdate
  have h1 : (sweepUrinals now 0 g.urinals g).cubicles = g.cubicles :=
    sweepUrinals_cubicles now g.urinals 0 g
  rw [h1]
  simpa using
    sweepCubicles_cubicles now g.cubicles [] 0 (sweepUrinals now 0 g.urinals g) rfl h1

/-- C8: an occupied, stamped facility is ready for release exactly when
now - occupiedAt has reached usageDuration: one tick short of the usage
duration it is not ready, at exactly the usage duration it is (inclusive
boundary); and the FacilityManager.update sweep releases precisely the
ready facilities, urinals and cubicles alike. -/
theorem autoRelease_inclusive_boundary :
    (∀ (f : Facility) (t : Nat),
        f.occupied = true → f.occupiedSince = some t → 0 < f.usageDuration →
          f.isReadyForRelease (t + f.usageDuration - 1) = false ∧
          f.isReadyForRelease (t + f.usageDuration) = true) ∧
    (∀ (f : Facility) (t now : Nat),
        f.occupied = true → f.occupiedSince = some t →
          (f.isReadyForRelease now = true ↔ now - t ≥ f.usageDuration)) ∧
    (∀ (g : GState) (now i : Nat) (u : Facility),
        g.urinals.get? i = some u →
          ((facilityUpdate now g).urinals.get? i).map Facility.occupied =
            some (if u.isReadyForRelease now then false else u.occupied)) ∧
    (∀ (g : GState) (now i : Nat) (c : Facility),
        g.cubicles.get? i = some c →
          ((facilityUpdate now g).cubicles.get? i).map Facility.occupied =
            some (if c.isReadyForRelease now then false else c.occupied)) := by
  refine ⟨?_, ?_, ?_, ?_⟩
  · intro f t ho hs hd
    unfold Facility.isReadyForRelease
    rw [hs]
    constructor
    · simp only [ho, Bool.true_and, decide_eq_false_iff_not]
      omega
    · simp only [ho, Bool.true_and, decide_eq_true_eq]
      omega
  · intro f t now ho hs
    unfold Facility.isReadyForRelease
    rw [hs]
    simp [ho]
  · intro g now i u hget
    rw [facilityUpdate_urinals, List.get?_map, hget]
    by_cases hr : u.isReadyForRelease now <;> simp [hr, Facility.release]
  · intro g now i c hget
    rw [facilityUpdate_cubicles, List.get?_map, hget]
    by_cases hr : c.isReadyForRelease now <;> simp [hr, Facility.release]

/-- C8 witness: urinal 0 of the example session (occupied at 100, usage
4000) is not ready at 4099 and ready at 4100, and the sweep of the example
session at 4100 releases it. -/
theorem autoRelease_inclusive_boundary_witness :
    (exUrinal0.isReadyForRelease 4099 = false ∧
      exUrinal0.isReadyForRelease 4100 = true) ∧
    ((facilityUpdate 4100 exSession).urinals.get? 0).map Facility.occupied = some false :=
  ⟨autoRelease_inclusive_boundary.1 exUrinal0 100 rfl rfl (by decide),
    by
      have h := autoRelease_inclusive_boundary.2.2.1 exSession 4100 0 exUrinal0 rfl
      simpa using h⟩

/-- C1: on an in-range, available urinal (with the engine wired up, as
main.js always does), assignMaleToUrinal always returns success — adjacency
never rejects it — and the event trace is exactly: the reward consumption
(when a reward was pending) strictly first, then the occupancy commit,
then the adjacency evaluation, then (only on violation) the scheduling of
the 500 ms delayed life penalty. A pending reward yields lives + 1 and a
cleared flag; with no reward the engine is untouched — in particular no
life is lost synchronously and the status never changes. -/
theorem urinal_assignment_order (g : GState) (maleId idx now : Nat) (u : Facility)
    (hget : g.urinals.get? idx = some u)
    (havail : u.isAvailable = true)
    (hGE : g.hasGameEngine = true) :
    ∃ (g2 : GState) (violation : Bool),
      assignMaleToUrinal maleId idx now g =
        Except.ok (g2,
          (if u.hasLifeReward then [Ev.gainLifeEv] else [])
            ++ [Ev.occupancyCommitted, Ev.adjacencyChecked violation]
            ++ (if violation then [Ev.scheduleLoseLife 500 Reason.adjacency] else []),
          true) ∧
      (u.hasLifeReward = true → g2.engine = gainLife g.engine ∧
          g2.engine.lives = g.engine.lives + 1 ∧
          (g2.urinals.get? idx).map Facility.hasLifeReward = some false) ∧
      (u.hasLifeReward = false → g2.engine = g.engine) ∧
      g2.engine.status = g.engine.status ∧
      (g2.urinals.get? idx).map Facility.occupied = some true := by
  obtain ⟨hlt, -⟩ := List.get?_eq_some.mp hget
  have hav := havail
  rw [Facility.isAvailable, Bool.and_eq_true, Bool.not_eq_true', Bool.not_eq_true'] at hav
  obtain ⟨ho, hoo⟩ := hav
  unfold assignMaleToUrinal
  rw [hget]
  by_cases hrw : u.hasLifeReward = true
  · simp only [havail, Bool.not_true, Bool.false_eq_true, if_false, hrw, hGE,
      Bool.and_self, Bool.and_true, ite_true, Facility.assign, ho, hoo, Bool.or_self,
      gainLife]
    refine ⟨_, _, rfl, ?_, ?_, ?_, ?_⟩
    · intro _
      refine ⟨rfl, rfl, ?_⟩
      rw [List.set_set, List.get?_set_eq_of_lt]
      · rfl
      · exact hlt
    · intro hc
      exact absurd hc (by simp)
    · rfl
    · rw [List.set_set, List.get?_set_eq_of_lt]
      · rfl
      · exact hlt
  · rw [Bool.not_eq_true] at hrw
    simp only [havail, Bool.not_true, Bool.false_eq_true, if_false, hrw, hGE,
      Bool.false_and, Bool.and_true, ite_false, Facility.assign, ho, hoo, Bool.or_self]
    refine ⟨_, _, rfl, ?_, ?_, ?_, ?_⟩
    · intro hc
      exact absurd hc (by simp)
    · intro _
      rfl
    · rfl
    · rw [List.get?_set_eq_of_lt]
      · rfl
      · exact hlt

/-- C1 witness: assigning male 2 to the free, reward-carrying urinal 1 of
the example session (whose neighbour urinal 0 is occupied) succeeds with
the trace gainLife, occupancy commit, adjacency violation, scheduled
500 ms penalty — and lives go from 3 to 4. -/
theorem urinal_assignment_order_witness :
    ∃ (g2 : GState) (violation : Bool),
      assignMaleToUrinal 2 1 200 exSession =
        Except.ok (g2,
          (if exUrinal1.hasLifeReward then [Ev.gainLifeEv] else [])
            ++ [Ev.occupancyCommitted, Ev.adjacencyChecked violation]
            ++ (if violation then [Ev.scheduleLoseLife 500 Reason.adjacency] else []),
          true) ∧
      (exUrinal1.hasLifeReward = true → g2.engine = gainLife exSession.engine ∧
          g2.engine.lives = exSession.engine.lives + 1 ∧
          (g2.urinals.get? 1).map Facility.hasLifeReward = some false) ∧
      (exUrinal1.hasLifeReward = false → g2.engine = exSession.engine) ∧
      g2.engine.status = exSession.engine.status ∧
      (g2.urinals.get? 1).map Facility.occupied = some true :=
  urinal_assignment_order exSession 2 1 200 exUrinal1 rfl rfl rfl

/-- C5 counterexample. The claim says setting an occupied facility out of
order evicts the occupant from the live set. On the example session
(urinal 0 occupied by male 1), setFacilityOutOfOrder releases the facility
but male 1 stays in the spawner collection, still in state 'using' — no
code path removes it. -/
theorem setOutOfOrder_does_not_evict :
    ((setFacilityOutOfOrder Kind.urinal 0 exSession).urinals.get? 0).map Facility.occupied =
      some false ∧
    ((setFacilityOutOfOrder Kind.urinal 0 exSession).urinals.get? 0).map Facility.outOfOrder =
      some true ∧
    (setFacilityOutOfOrder Kind.urinal 0 exSession).males = exSession.males ∧
    exMale1 ∈ (setFacilityOutOfOrder Kind.urinal 0 exSession).males ∧
    exMale1.state = MaleState.using := by
  refine ⟨by decide, by decide, by decide, by decide, rfl⟩

/-- C5 amended: setting a facility out of order while occupied forces an
immediate release with no life penalty (neither the engine record nor the
male collection is touched — in particular the occupant does NOT leave the
live set), the invariant outOfOrder implies not-occupied holds after every
facility operation (setOutOfOrder, release, successful assign), and
setOutOfOrder(true) is idempotent, both per facility and through the
manager. -/
theorem setOutOfOrder_contract :
    (∀ (g : GState) (t : Kind) (i : Nat),
        (setFacilityOutOfOrder t i g).males = g.males ∧
        (setFacilityOutOfOrder t i g).engine = g.engine) ∧
    (∀ (g : GState) (i : Nat) (u : Facility),
        g.urinals.get? i = some u →
          (setFacilityOutOfOrder Kind.urinal i g).urinals.get? i =
            some (u.setOutOfOrder true)) ∧
    (∀ (g : GState) (i : Nat) (c : Facility),
        g.cubicles.get? i = some c →
          (setFacilityOutOfOrder Kind.cubicle i g).cubicles.get? i =
            some (c.setOutOfOrder true)) ∧
    (∀ f : Facility,
        (f.setOutOfOrder true).outOfOrder = true ∧
        (f.setOutOfOrder true).occupied = false ∧
        (f.setOutOfOrder true).setOutOfOrder true = f.setOutOfOrder true) ∧
    (∀ (g : GState) (t : Kind) (i : Nat),
        setFacilityOutOfOrder t i (setFacilityOutOfOrder t i g) =
          setFacilityOutOfOrder t i g) ∧
    (∀ (f : Facility) (flag : Bool),
        ((f.setOutOfOrder flag).outOfOrder = true →
            (f.setOutOfOrder flag).occupied = false) ∧
        (f.release.outOfOrder = true → f.release.occupied = false)) ∧
    (∀ (f f2 : Facility) (maleId now : Nat),
        Facility.assign maleId now f = Except.ok f2 →
          f2.outOfOrder = true → f2.occupied = false) := by
  have hfac : ∀ f : Facility,
      (f.setOutOfOrder true).outOfOrder = true ∧
      (f.setOutOfOrder true).occupied = false ∧
      (f.setOutOfOrder true).setOutOfOrder true = f.setOutOfOrder true := by
    intro f
    cases ho : f.occupied <;> simp [Facility.setOutOfOrder, Facility.release, ho]
  refine ⟨?_, ?_, ?_, hfac, ?_, ?_, ?_⟩
  · intro g t i
    cases t
    · cases h : g.urinals.get? i <;> (unfold setFacilityOutOfOrder; rw [h]) <;>
        exact ⟨rfl, rfl⟩
    · cases h : g.cubicles.get? i <;> (unfold setFacilityOutOfOrder; rw [h]) <;>
        exact ⟨rfl, rfl⟩
  · intro g i u hget
    obtain ⟨hlt, -⟩ := List.get?_eq_some.mp hget
    unfold setFacilityOutOfOrder
    rw [hget]
    exact List.get?_set_eq_of_lt _ hlt
  · intro g i c hget
    obtain ⟨hlt, -⟩ := List.get?_eq_some.mp hget
    unfold setFacilityOutOfOrder
    rw [hget]
    exact List.get?_set_eq_of_lt _ hlt
  · intro g t i
    cases t
    · cases h : g.urinals.get? i with
      | none =>
        have hre : setFacilityOutOfOrder Kind.urinal i g = g := by
          unfold setFacilityOutOfOrder
          rw [h]
        simp [hre]
      | some u =>
        obtain ⟨hlt, -⟩ := List.get?_eq_some.mp h
        have h1 : setFacilityOutOfOrder Kind.urinal i g =
            { g with urinals := g.urinals.set i (u.setOutOfOrder true) } := by
          unfold setFacilityOutOfOrder
          rw [h]
        have h2 : ({ g with urinals := g.urinals.set i (u.setOutOfOrder true) } :
              GState).urinals.get? i = some (u.setOutOfOrder true) :=
          List.get?_set_eq_of_lt _ hlt
        rw [h1]
        unfold setFacilityOutOfOrder
        simp only [h2]
        rw [(hfac u).2.2, List.set_set]
    · cases h : g.cubicles.get? i with
      | none =>
        have hre : setFacilityOutOfOrder Kind.cubicle i g = g := by
          unfold setFacilityOutOfOrder
          rw [h]
        simp [hre]
      | some c =>
        obtain ⟨hlt, -⟩ := List.get?_eq_some.mp h
        have h1 : setFacilityOutOfOrder Kind.cubicle i g =
            { g with cubicles := g.cubicles.set i (c.setOutOfOrder true) } := by
          unfold setFacilityOutOfOrder
          rw [h]
        have h2 : ({ g with cubicles := g.cubicles.set i (c.setOutOfOrder true) } :
              GState).cubicles.get? i = some (c.setOutOfOrder true) :=
          List.get?_set_eq_of_lt _ hlt
        rw [h1]
        unfold setFacilityOutOfOrder
        simp only [h2]
        rw [(hfac c).2.2, List.set_set]
  · intro f flag
    constructor
    · intro h1
      cases ho : f.occupied <;> cases flag <;>
        simp_all [Facility.setOutOfOrder, Facility.release]
    · intro h1
      simp [Facility.release]
  · intro f f2 maleId now hok
    unfold Facility.assign at hok
    by_cases h : (f.occupied || f.outOfOrder) = true
    · rw [if_pos h] at hok
      exact absurd hok (by simp)
    · rw [if_neg h] at hok
      rw [Bool.or_eq_true] at h
      push_neg at h
      injection hok with h2
      intro hoo
      rw [← h2] at hoo
      exact absurd hoo (by simp [Bool.eq_false_iff.mpr h.2])

/-- C5 amended, witness: on the example session, marking occupied urinal 0
out of order leaves the engine untouched and yields the released, flagged
facility. -/
theorem setOutOfOrder_contract_witness :
    (setFacilityOutOfOrder Kind.urinal 0 exSession).engine = exSession.engine ∧
    (setFacilityOutOfOrder Kind.urinal 0 exSession).urinals.get? 0 =
      some (exUrinal0.setOutOfOrder true) :=
  ⟨(setOutOfOrder_contract.1 exSession Kind.urinal 0).2,
    setOutOfOrder_contract.2.1 exSession 0 exUrinal0 rfl⟩

/-- The world as main.js initializeGame builds it with GAME_CONFIG
(5 urinals at 4000 ms, 2 cubicles at 10000 ms, spawn rate 2000 ms, wait
budget 12000 ms), before the first start. -/
def freshSession : GState :=
  { engine :=
      { status := Status.menu
        score := 0
        highScore := 0
        isNewHighScore := false
        difficulty := 1
        lives := 3
        malesServiced := 0
        gameOverReason := none
        spawnRate := 2000
        audioPresent := true
        storagePresent := true
        storedHighScore := 0 }
    urinals := (List.range 5).map
      (fun i => { Facility.init Kind.urinal i with usageDuration := 4000 })
    cubicles := (List.range 2).map
      (fun i => { Facility.init Kind.cubicle i with usageDuration := 10000 })
    males := []
    nextMaleId := 1
    spawnerRate := 2000
    lastSpawnTime := 0
    timeSinceLastSpawn := 0
    defaultWaitTime := some 12000
    hasGameEngine := true }

/-- A finished previous session in the same configuration whose urinal 0
still carries an unclaimed life reward (set by the reward process and
never claimed before the game ended). -/
def staleRewardSession : GState :=
  { freshSession with
    engine := { freshSession.engine with
      status := Status.gameOver
      score := 7
      lives := 0
      malesServiced := 7
      gameOverReason := some Reason.timeout }
    urinals := freshSession.urinals.set 0
      { Facility.init Kind.urinal 0 with usageDuration := 4000, hasLifeReward := true }
    nextMaleId := 9 }

/-- C4 counterexample. The claim says reset-and-restart reproduces the
fresh-session facility state exactly, reward flags included. Starting a
session always goes through GameEngine.reset, so the two sides to compare
are the post-reset states; resetting the finished session that has a
pending reward on urinal 0 keeps that reward, while the fresh session has
none — the states differ. -/
theorem reset_keeps_stale_reward :
    ((gameReset staleRewardSession).urinals.get? 0).map Facility.hasLifeReward = some true ∧
    ((gameReset freshSession).urinals.get? 0).map Facility.hasLifeReward = some false ∧
    gameReset staleRewardSession ≠ gameReset freshSession := by
  refine ⟨by decide, by decide, by decide⟩

/-- C4 amended: GameEngine.reset restores the session record (score 0,
lives 3, difficulty 1, no game-over reason, spawn rate 2000), empties the
occupant collection, restarts the id counter at 1, zeroes the spawn
timers (spawner rate back to 3000), and releases and un-flags every
facility — but each facility's hasLifeReward flag survives verbatim, so
the restarted state equals the fresh one exactly when no reward was
pending. Per facility, reset equals a freshly constructed facility of the
same kind, index and configured usage duration except for the carried
reward flag. -/
theorem gameReset_contract (g : GState) :
    (gameReset g).urinals = g.urinals.map (fun u =>
        { u with occupied := false, occupiedBy := none, occupiedSince := none,
                 outOfOrder := false }) ∧
    (gameReset g).cubicles = g.cubicles.map (fun c =>
        { c with occupied := false, occupiedBy := none, occupiedSince := none,
                 outOfOrder := false }) ∧
    (gameReset g).males = [] ∧
    (gameReset g).nextMaleId = 1 ∧
    (gameReset g).spawnerRate = 3000 ∧
    (gameReset g).timeSinceLastSpawn = 0 ∧
    (gameReset g).lastSpawnTime = 0 ∧
    (gameReset g).engine.score = 0 ∧
    (gameReset g).engine.lives = 3 ∧
    (gameReset g).engine.difficulty = 1 ∧
    (gameReset g).engine.gameOverReason = none ∧
    (gameReset g).engine.spawnRate = 2000 ∧
    (gameReset g).urinals.map Facility.hasLifeReward = g.urinals.map Facility.hasLifeReward ∧
    (gameReset g).cubicles.map Facility.hasLifeReward = g.cubicles.map Facility.hasLifeReward ∧
    (∀ u : Facility, resetFacility u =
        { Facility.init u.type u.index with usageDuration := u.usageDuration,
                                            hasLifeReward := u.hasLifeReward }) := by
  have hreset : ∀ u : Facility, resetFacility u =
      { u with occupied := false, occupiedBy := none, occupiedSince := none,
               outOfOrder := false } := by
    intro u
    simp [resetFacility, Facility.release, Facility.setOutOfOrder]
  have hfun : resetFacility = fun u : Facility =>
      { u with occupied := false, occupiedBy := none, occupiedSince := none,
               outOfOrder := false } := funext hreset
  refine ⟨?_, ?_, rfl, rfl, rfl, rfl, rfl, rfl, rfl, rfl, rfl, rfl, ?_, ?_, ?_⟩
  · show g.urinals.map resetFacility = _
    rw [hfun]
  · show g.cubicles.map resetFacility = _
    rw [hfun]
  · show (g.urinals.map resetFacility).map Facility.hasLifeReward = _
    rw [List.map_map]
    have : Facility.hasLifeReward ∘ resetFacility = Facility.hasLifeReward := by
      funext u
      show (resetFacility u).hasLifeReward = u.hasLifeReward
      rw [hreset]
    rw [this]
  · show (g.cubicles.map resetFacility).map Facility.hasLifeReward = _
    rw [List.map_map]
    have : Facility.hasLifeReward ∘ resetFacility = Facility.hasLifeReward := by
      funext u
      show (resetFacility u).hasLifeReward = u.hasLifeReward
      rw [hreset]
    rw [this]
  · intro u
    rw [hreset]
    simp [Facility.init]

/-- loseLife always decrements the lives field by one, whatever else the
game-over path touches. -/
lemma loseLife_lives (r : Reason) (s : EngineState) :
    (loseLife r s).lives = s.lives - 1 := by
  by_cases h : s.lives - 1 ≤ 0 <;>
    simp only [loseLife, endGame, checkAndUpdateHighScore, h, ite_true, ite_false] <;>
    split <;> (try split) <;> rfl

/-- Deleting one member of an id-sorted male list by id shortens it by
exactly one. -/
lemma filter_ne_id_length (m : Male) :
    ∀ l : List Male, m ∈ l → l.Pairwise (fun a b => a.id < b.id) →
      (l.filter (fun x => x.id != m.id)).length + 1 = l.length := by
  intro l
  induction l with
  | nil => intro h; cases h
  | cons h t ih =>
    intro hmem hpw
    obtain ⟨hrel, hpt⟩ := List.pairwise_cons.mp hpw
    rcases List.mem_cons.mp hmem with he | ht
    · subst he
      have hall : ∀ x ∈ t, (x.id != m.id) = true := by
        intro x hx
        have := hrel x hx
        simp only [bne_iff_ne, ne_eq]
        omega
      rw [List.filter_cons]
      simp only [bne_self_eq_false, Bool.false_eq_true, if_false,
        List.filter_eq_self.mpr hall, List.length_cons]
    · have hne : (h.id != m.id) = true := by
        have := hrel m ht
        simp only [bne_iff_ne, ne_eq]
        omega
      rw [List.filter_cons, if_pos hne, List.length_cons, List.length_cons]
      rw [← ih ht hpt]

/-- Male 1 of the trio session: waiting since 0, budget 12000 ms. -/
def exTimeout1 : Male :=
  { id := 1, spawnTime := 0, maxWaitTime := 12000, assignedFacility := none,
    facilityType := none, state := MaleState.waiting }

/-- Male 2 of the trio session: waiting since 100. -/
def exTimeout2 : Male :=
  { id := 2, spawnTime := 100, maxWaitTime := 12000, assignedFacility := none,
    facilityType := none, state := MaleState.waiting }

/-- Male 3 of the trio session: waiting since 200. -/
def exTimeout3 : Male :=
  { id := 3, spawnTime := 200, maxWaitTime := 12000, assignedFacility := none,
    facilityType := none, state := MaleState.waiting }

/-- A playing session with 3 lives whose three waiting males have all
exceeded their 12000 ms budget by time 20000. -/
def timeoutTrio : GState :=
  { freshSession with
    engine := { freshSession.engine with status := Status.playing }
    males := [exTimeout1, exTimeout2, exTimeout3]
    nextMaleId := 4 }

/-- C6: whenever checkGameOver (the timeout phase of the tick, run once per
GameEngine.update) finds a timed-out male, it is the first one in id
order; exactly that male is removed (for distinct ids the collection
shrinks by exactly one, no matter how many males have expired), and
exactly one life is lost. Running the tick three times on a playing
session with 3 lives and three simultaneously expired males removes them
one at a time and ends in GameOver with reason timeout and 0 lives. -/
theorem one_timeout_per_tick :
    (∀ (now : Nat) (g : GState) (m : Male),
        checkForTimeout now g.males = some m →
          m.hasTimedOut now = true ∧ m ∈ g.males ∧
          (checkGameOver now g).males = g.males.filter (fun x => x.id != m.id) ∧
          (checkGameOver now g).engine.lives = g.engine.lives - 1 ∧
          (g.males.Pairwise (fun a b => a.id < b.id) →
            (checkGameOver now g).males.length + 1 = g.males.length)) ∧
    ((checkGameOver 20000 timeoutTrio).engine.status = Status.playing ∧
      (checkGameOver 20000 timeoutTrio).engine.lives = 2 ∧
      (checkGameOver 20000 timeoutTrio).males = [exTimeout2, exTimeout3] ∧
      (checkGameOver 20000 (checkGameOver 20000 timeoutTrio)).engine.lives = 1 ∧
      (checkGameOver 20000 (checkGameOver 20000 timeoutTrio)).engine.status =
        Status.playing ∧
      (checkGameOver 20000 (checkGameOver 20000
          (checkGameOver 20000 timeoutTrio))).engine.status = Status.gameOver ∧
      (checkGameOver 20000 (checkGameOver 20000
          (checkGameOver 20000 timeoutTrio))).engine.gameOverReason =
        some Reason.timeout ∧
      (checkGameOver 20000 (checkGameOver 20000
          (checkGameOver 20000 timeoutTrio))).engine.lives = 0 ∧
      (checkGameOver 20000 (checkGameOver 20000
          (checkGameOver 20000 timeoutTrio))).males = []) := by
  constructor
  · intro now g m hfind
    have hp : m.hasTimedOut now = true := List.find?_some hfind
    have hmem : m ∈ g.males := List.mem_of_find?_eq_some hfind
    have hlen : g.males.length > 0 := List.length_pos.mpr (List.ne_nil_of_mem hmem)
    have hred : checkGameOver now g =
        { g with engine := loseLife Reason.timeout g.engine,
                 males := removeMale m.id g.males } := by
      unfold checkGameOver
      rw [if_pos hlen]
      unfold checkForTimeout at hfind
      rw [checkForTimeout, hfind]
    refine ⟨hp, hmem, ?_, ?_, ?_⟩
    · rw [hred]
      rfl
    · rw [hred]
      exact loseLife_lives Reason.timeout g.engine
    · intro hpw
      rw [hred]
      exact filter_ne_id_length m g.males hmem hpw
  · refine ⟨by decide, by decide, by decide, by decide, by decide, by decide,
      by decide, by decide, by decide⟩

/-- C6 witness: on the trio session at time 20000, male 1 is found first
and the collection shrinks from 3 to 2. -/
theorem one_timeout_per_tick_witness :
    (checkGameOver 20000 timeoutTrio).males.length + 1 = timeoutTrio.males.length :=
  (one_timeout_per_tick.1 20000 timeoutTrio exTimeout1 (by decide)).2.2.2.2 (by decide)

/-- On an in-range available urinal, assignMaleToUrinal succeeds and leaves
the male collection untouched. -/
lemma assignMaleToUrinal_ok (g : GState) (maleId index now : Nat) (u : Facility)
    (hget : g.urinals.get? index = some u) (havail : u.isAvailable = true) :
    ∃ (g1 : GState) (evs : List Ev),
      assignMaleToUrinal maleId index now g = Except.ok (g1, evs, true) ∧
      g1.males = g.males := by
  have hav := havail
  rw [Facility.isAvailable, Bool.and_eq_true, Bool.not_eq_true', Bool.not_eq_true'] at hav
  obtain ⟨ho, hoo⟩ := hav
  unfold assignMaleToUrinal
  rw [hget]
  simp only [havail, Bool.not_true, Bool.false_eq_true, if_false]
  by_cases hc : (u.hasLifeReward && g.hasGameEngine) = true <;>
    simp only [hc, ite_true, ite_false, Facility.assign, ho, hoo, Bool.or_self,
      Bool.false_eq_true, if_false] <;>
    exact ⟨_, _, rfl, rfl⟩

/-- On an in-range available cubicle, assignMaleToCubicle succeeds and
leaves the male collection untouched. -/
lemma assignMaleToCubicle_ok (g : GState) (maleId index now : Nat) (c : Facility)
    (hget : g.cubicles.get? index = some c) (havail : c.isAvailable = true) :
    ∃ (g1 : GState) (evs : List Ev),
      assignMaleToCubicle maleId index now g = Except.ok (g1, evs, true) ∧
      g1.males = g.males := by
  have hav := havail
  rw [Facility.isAvailable, Bool.and_eq_true, Bool.not_eq_true', Bool.not_eq_true'] at hav
  obtain ⟨ho, hoo⟩ := hav
  unfold assignMaleToCubicle
  rw [hget]
  simp only [havail, Bool.not_true, Bool.false_eq_true, if_false]
  by_cases hc : (c.hasLifeReward && g.hasGameEngine) = true <;>
    simp only [hc, ite_true, ite_false, Facility.assign, ho, hoo, Bool.or_self,
      Bool.false_eq_true, if_false] <;>
    exact ⟨_, _, rfl, rfl⟩

/-- In an id-sorted male list, looking up a member by its id finds exactly
that member. -/
lemma find?_id_of_sorted :
    ∀ (l : List Male) (m : Male), l.Pairwise (fun a b => a.id < b.id) → m ∈ l →
      l.find? (fun x => x.id == m.id) = some m := by
  intro l
  induction l with
  | nil => intro m _ h; cases h
  | cons h t ih =>
    intro m hpw hmem
    obtain ⟨hrel, hpt⟩ := List.pairwise_cons.mp hpw
    rcases List.mem_cons.mp hmem with he | ht
    · subst he
      exact List.find?_cons_of_pos _ (by simp)
    · have hlt := hrel m ht
      have hne : ¬ ((h.id == m.id) = true) := by
        simp only [beq_iff_eq]
        omega
      rw [List.find?_cons_of_neg]
      exacts [ih m hpt ht, hne]

/-- C9: clicking an available facility with an id-sorted male collection
either does nothing when nobody is waiting (the silent QueueEmpty
rejection leaves the state unchanged), or serves precisely the waiting
male of lowest id: it goes Waiting to Assigned (kind and index recorded)
to Using, and the resulting world is the facility-assignment world with
exactly that male's entry rewritten. -/
theorem queue_head_selection (g : GState) (t : Kind) (index now : Nat) (f : Facility)
    (hget : (match t with
             | Kind.urinal => g.urinals.get? index
             | Kind.cubicle => g.cubicles.get? index) = some f)
    (havail : f.isAvailable = true)
    (hsorted : g.males.Pairwise (fun a b => a.id < b.id)) :
    (getMalesInQueue g.males = [] → processFacilityClick t index now g = g) ∧
    (∀ (m : Male) (rest : List Male), getMalesInQueue g.males = m :: rest →
        m ∈ g.males ∧ m.state = MaleState.waiting ∧
        (∀ x ∈ g.males, x.state = MaleState.waiting → m.id ≤ x.id) ∧
        (m.assignToFacility t index).state = MaleState.assigned ∧
        ((m.assignToFacility t index).startUsing).state = MaleState.using ∧
        ((m.assignToFacility t index).startUsing).facilityType = some t ∧
        ((m.assignToFacility t index).startUsing).assignedFacility = some index ∧
        ∃ g1 : GState, g1.males = g.males ∧
          processFacilityClick t index now g =
            { g1 with males := g.males.map (fun x =>
                if x.id == m.id then (x.assignToFacility t index).startUsing else x) }) := by
  constructor
  · intro hempty
    cases t
    · have hgu : g.urinals.get? index = some f := hget
      unfold processFacilityClick
      rw [hgu]
      simp only [havail, Bool.not_true, Bool.false_eq_true, if_false]
      rw [hempty]
    · have hgc : g.cubicles.get? index = some f := hget
      unfold processFacilityClick
      rw [hgc]
      simp only [havail, Bool.not_true, Bool.false_eq_true, if_false]
      rw [hempty]
  · intro m rest hq
    have hmem_f : m ∈ getMalesInQueue g.males := by
      rw [hq]
      exact List.mem_cons_self m rest
    have hmf := List.mem_filter.mp hmem_f
    have hmem : m ∈ g.males := hmf.1
    have hw : m.state = MaleState.waiting := of_decide_eq_true hmf.2
    have hmin : ∀ x ∈ g.males, x.state = MaleState.waiting → m.id ≤ x.id := by
      intro x hx hxw
      have hxf : x ∈ getMalesInQueue g.males :=
        List.mem_filter.mpr ⟨hx, by simp [hxw]⟩
      rw [hq] at hxf
      rcases List.mem_cons.mp hxf with he | ht
      · simp [he]
      · have hpf : (getMalesInQueue g.males).Pairwise (fun a b => a.id < b.id) :=
          List.Pairwise.sublist (List.filter_sublist _) hsorted
        rw [hq] at hpf
        have := (List.pairwise_cons.mp hpf).1 x ht
        omega
    cases t
    · have hgu : g.urinals.get? index = some f := hget
      obtain ⟨g1, evs, hok, hml⟩ := assignMaleToUrinal_ok g m.id index now f hgu havail
      have hspawn : spawnerAssignMale m.id Kind.urinal index g1 =
          Except.ok { g1 with males := g.males.map (fun x =>
              if x.id == m.id then (x.assignToFacility Kind.urinal index).startUsing
              else x) } := by
        unfold spawnerAssignMale
        rw [hml, find?_id_of_sorted g.males m hsorted hmem]
        dsimp only
        rw [if_neg (by simp [hw])]
      refine ⟨hmem, hw, hmin, rfl, rfl, rfl, rfl, g1, hml, ?_⟩
      unfold processFacilityClick
      rw [hgu]
      simp only [havail, Bool.not_true, Bool.false_eq_true, if_false]
      rw [hq]
      dsimp only
      rw [hok]
      dsimp only
      rw [if_pos rfl, hspawn]
    · have hgc : g.cubicles.get? index = some f := hget
      obtain ⟨g1, evs, hok, hml⟩ := assignMaleToCubicle_ok g m.id index now f hgc havail
      have hspawn : spawnerAssignMale m.id Kind.cubicle index g1 =
          Except.ok { g1 with males := g.males.map (fun x =>
              if x.id == m.id then (x.assignToFacility Kind.cubicle index).startUsing
              else x) } := by
        unfold spawnerAssignMale
        rw [hml, find?_id_of_sorted g.males m hsorted hmem]
        dsimp only
        rw [if_neg (by simp [hw])]
      refine ⟨hmem, hw, hmin, rfl, rfl, rfl, rfl, g1, hml, ?_⟩
      unfold processFacilityClick
      rw [hgc]
      simp only [havail, Bool.not_true, Bool.false_eq_true, if_false]
      rw [hq]
      dsimp only
      rw [hok]
      dsimp only
      rw [if_pos rfl, hspawn]

/-- C9 witness: clicking free urinal 2 of the example session serves male 2
(the lowest waiting id), leaving it Using with urinal 2 recorded. -/
theorem queue_head_selection_witness :
    ∃ g1 : GState, g1.males = exSession.males ∧
      processFacilityClick Kind.urinal 2 300 exSession =
        { g1 with males := exSession.males.map (fun x =>
            if x.id == exMale2.id
            then (x.assignToFacility Kind.urinal 2).startUsing else x) } :=
  ((queue_head_selection exSession Kind.urinal 2 300 exUrinal2 rfl rfl
      (by decide)).2 exMale2 [exMale3] rfl).2.2.2.2.2.2.2

/-- The urinal disruption weight is always positive (it is 1 or 3). -/
lemma urinalDisruptionWeight_pos (d i : Nat) : 0 < urinalDisruptionWeight d i := by
  unfold urinalDisruptionWeight
  dsimp only
  split <;> split <;> decide

/-- One unfolding step of the urinal target pass. -/
lemma weightedUrinalTargets_cons (d k : Nat) (u : Facility) (rest : List Facility) :
    weightedUrinalTargets d k (u :: rest) =
      (if u.outOfOrder || u.occupied then []
       else List.replicate (urinalDisruptionWeight d k) { kind := Kind.urinal, index := k })
      ++ weightedUrinalTargets d (k + 1) rest := rfl

/-- One unfolding step of the cubicle target pass. -/
lemma weightedCubicleTargets_cons (k : Nat) (c : Facility) (rest : List Facility) :
    weightedCubicleTargets k (c :: rest) =
      (if c.outOfOrder || c.occupied then []
       else List.replicate 2 { kind := Kind.cubicle, index := k })
      ++ weightedCubicleTargets (k + 1) rest := rfl

/-- Urinal targets with index below the running offset never occur. -/
lemma count_weightedUrinalTargets_lt (d : Nat) :
    ∀ (us : List Facility) (k j : Nat), j < k →
      (weightedUrinalTargets d k us).count { kind := Kind.urinal, index := j } = 0 := by
  intro us
  induction us with
  | nil => intro k j _; rfl
  | cons u rest ih =>
    intro k j hj
    rw [weightedUrinalTargets_cons, List.count_append]
    have hne : ¬ (k = j) := by omega
    cases hel : (u.outOfOrder || u.occupied) <;>
      simp [hel, List.count_replicate, hne, ih (k + 1) j (by omega)]

/-- Cubicle targets never occur in the urinal pass. -/
lemma count_weightedUrinalTargets_cubicle (d : Nat) :
    ∀ (us : List Facility) (k j : Nat),
      (weightedUrinalTargets d k us).count { kind := Kind.cubicle, index := j } = 0 := by
  intro us
  induction us with
  | nil => intro k j; rfl
  | cons u rest ih =>
    intro k j
    rw [weightedUrinalTargets_cons, List.count_append]
    cases hel : (u.outOfOrder || u.occupied) <;>
      simp [hel, List.count_replicate, ih (k + 1) j]

/-- Urinal targets never occur in the cubicle pass. -/
lemma count_weightedCubicleTargets_urinal :
    ∀ (cs : List Facility) (k j : Nat),
      (weightedCubicleTargets k cs).count { kind := Kind.urinal, index := j } = 0 := by
  intro cs
  induction cs with
  | nil => intro k j; rfl
  | cons c rest ih =>
    intro k j
    rw [weightedCubicleTargets_cons, List.count_append]
    cases hel : (c.outOfOrder || c.occupied) <;>
      simp [hel, List.count_replicate, ih (k + 1) j]

/-- Cubicle targets with index below the running offset never occur. -/
lemma count_weightedCubicleTargets_lt :
    ∀ (cs : List Facility) (k j : Nat), j < k →
      (weightedCubicleTargets k cs).count { kind := Kind.cubicle, index := j } = 0 := by
  intro cs
  induction cs with
  | nil => intro k j _; rfl
  | cons c rest ih =>
    intro k j hj
    rw [weightedCubicleTargets_cons, List.count_append]
    have hne : ¬ (k = j) := by omega
    cases hel : (c.outOfOrder || c.occupied) <;>
      simp [hel, List.count_replicate, List.count_cons, hne, ih (k + 1) j (by omega)]

/-- Multiplicity of an urinal target in the urinal pass: its weight when
eligible, 0 otherwise. -/
lemma count_weightedUrinalTargets (d : Nat) :
    ∀ (us : List Facility) (k j : Nat),
      (weightedUrinalTargets d k us).count { kind := Kind.urinal, index := k + j } =
        (match us.get? j with
         | some u => if (u.outOfOrder || u.occupied) = true then 0
                     else urinalDisruptionWeight d (k + j)
         | none => 0) := by
  intro us
  induction us with
  | nil => intro k j; rfl
  | cons u rest ih =>
    intro k j
    rw [weightedUrinalTargets_cons, List.count_append]
    cases j with
    | zero =>
      rw [count_weightedUrinalTargets_lt d rest (k + 1) (k + 0) (by omega)]
      cases hel : (u.outOfOrder || u.occupied) <;>
        simp [hel, List.count_replicate]
    | succ j =>
      have hne : ¬ (k = k + (j + 1)) := by omega
      have hrec := ih (k + 1) j
      rw [show k + (j + 1) = (k + 1) + j by omega]
      cases hel : (u.outOfOrder || u.occupied) <;>
        simp [hel, List.count_replicate, hne, hrec]
      · rw [show k + 1 + j = k + (j + 1) by omega] at hrec ⊢
        simp [hne]

/-- Multiplicity of a cubicle target in the cubicle pass: 2 when eligible,
0 otherwise. -/
lemma count_weightedCubicleTargets :
    ∀ (cs : List Facility) (k j : Nat),
      (weightedCubicleTargets k cs).count { kind := Kind.cubicle, index := k + j } =
        (match cs.get? j with
         | some c => if (c.outOfOrder || c.occupied) = true then 0 else 2
         | none => 0) := by
  intro cs
  induction cs with
  | nil => intro k j; rfl
  | cons c rest ih =>
    intro k j
    rw [weightedCubicleTargets_cons, List.count_append]
    cases j with
    | zero =>
      rw [count_weightedCubicleTargets_lt rest (k + 1) (k + 0) (by omega)]
      cases hel : (c.outOfOrder || c.occupied) <;>
        simp [hel, List.count_replicate]
    | succ j =>
      have hne : ¬ (k = k + (j + 1)) := by omega
      have hrec := ih (k + 1) j
      rw [show k + (j + 1) = (k + 1) + j by omega]
      cases hel : (c.outOfOrder || c.occupied) <;>
        simp [hel, List.count_replicate, List.count_cons, hne, hrec] <;>
        rw [show k + 1 + j = k + (j + 1) by omega] at hrec ⊢ <;>
        simp [hne]

/-- The urinal pass is empty exactly when every urinal is out of order or
occupied. -/
lemma weightedUrinalTargets_eq_nil (d : Nat) :
    ∀ (us : List Facility) (k : Nat),
      weightedUrinalTargets d k us = [] ↔
        ∀ u ∈ us, (u.outOfOrder || u.occupied) = true := by
  intro us
  induction us with
  | nil => intro k; simp [weightedUrinalTargets]
  | cons u rest ih =>
    intro k
    rw [weightedUrinalTargets_cons, List.append_eq_nil]
    cases hel : (u.outOfOrder || u.occupied)
    · simp only [Bool.or_eq_false_iff] at hel
      simp [hel, ih (k + 1), List.replicate_eq_nil,
        Nat.pos_iff_ne_zero.mp (urinalDisruptionWeight_pos d k)]
    · simp [hel, ih (k + 1)]
      intro _
      simpa using hel

/-- The cubicle pass is empty exactly when every cubicle is out of order or
occupied. -/
lemma weightedCubicleTargets_eq_nil :
    ∀ (cs : List Facility) (k : Nat),
      weightedCubicleTargets k cs = [] ↔
        ∀ c ∈ cs, (c.outOfOrder || c.occupied) = true := by
  intro cs
  induction cs with
  | nil => intro k; simp [weightedCubicleTargets]
  | cons c rest ih =>
    intro k
    rw [weightedCubicleTargets_cons, List.append_eq_nil]
    cases hel : (c.outOfOrder || c.occupied)
    · simp only [Bool.or_eq_false_iff] at hel
      simp [hel, ih (k + 1), List.replicate_eq_nil]
    · simp [hel, ih (k + 1)]
      intro _
      simpa using hel

/-- C10: the weighted out-of-order candidate list contains each Primary
slot that is neither out of order nor occupied with multiplicity 3 when
its 1-based number is even and difficulty is at most 5, 3 when it is odd
and difficulty exceeds 5, and 1 otherwise; each eligible Secondary slot
with flat multiplicity 2; nothing else. The selection is the entry at a
uniformly drawn position of that list, and it is None exactly when no
eligible candidate exists. -/
theorem disruption_target_weighting :
    (∀ d i : Nat,
        urinalDisruptionWeight d i =
          if ((i + 1) % 2 = 0 ∧ d ≤ 5) ∨ ((i + 1) % 2 ≠ 0 ∧ 5 < d) then 3 else 1) ∧
    (∀ (d : Nat) (us cs : List Facility) (i : Nat),
        (weightedTargets d us cs).count { kind := Kind.urinal, index := i } =
          (match us.get? i with
           | some u => if (u.outOfOrder || u.occupied) = true then 0
                       else urinalDisruptionWeight d i
           | none => 0)) ∧
    (∀ (d : Nat) (us cs : List Facility) (i : Nat),
        (weightedTargets d us cs).count { kind := Kind.cubicle, index := i } =
          (match cs.get? i with
           | some c => if (c.outOfOrder || c.occupied) = true then 0 else 2
           | none => 0)) ∧
    (∀ (d draw : Nat) (us cs : List Facility),
        getWeightedOutOfOrderFacility d draw us cs = none ↔
          ((∀ u ∈ us, (u.outOfOrder || u.occupied) = true) ∧
           (∀ c ∈ cs, (c.outOfOrder || c.occupied) = true))) ∧
    (∀ (d draw : Nat) (us cs : List Facility),
        weightedTargets d us cs ≠ [] →
          getWeightedOutOfOrderFacility d draw us cs =
            (weightedTargets d us cs).get? (draw % (weightedTargets d us cs).length)) ∧
    (∀ (d draw : Nat) (us cs : List Facility) (tgt : Target),
        getWeightedOutOfOrderFacility d draw us cs = some tgt →
          tgt ∈ weightedTargets d us cs) := by
  refine ⟨?_, ?_, ?_, ?_, ?_, ?_⟩
  · intro d i
    unfold urinalDisruptionWeight
    dsimp only
    by_cases hd : d ≤ 5 <;> by_cases he : (i + 1) % 2 = 0
    · rw [if_pos hd, if_pos (by simp [he]), if_pos (Or.inl ⟨he, hd⟩)]
    · rw [if_pos hd, if_neg (by simp [he]), if_neg ?hcond]
      case hcond =>
        rintro (⟨h1, -⟩ | ⟨-, h2⟩)
        · exact he h1
        · omega
    · rw [if_neg hd, if_pos (by simp [he]), if_neg ?hcond2]
      case hcond2 =>
        rintro (⟨-, h2⟩ | ⟨h1, -⟩)
        · exact hd h2
        · exact h1 he
    · rw [if_neg hd, if_neg (by simp [he]), if_pos (Or.inr ⟨he, by omega⟩)]
  · intro d us cs i
    unfold weightedTargets
    rw [List.count_append, count_weightedCubicleTargets_urinal cs 0 i, Nat.add_zero]
    have h := count_weightedUrinalTargets d us 0 i
    rwa [Nat.zero_add] at h
  · intro d us cs i
    unfold weightedTargets
    rw [List.count_append, count_weightedUrinalTargets_cubicle d us 0 i, Nat.zero_add]
    have h := count_weightedCubicleTargets cs 0 i
    rwa [Nat.zero_add] at h
  · intro d draw us cs
    unfold getWeightedOutOfOrderFacility
    constructor
    · intro hnone
      by_cases he : (weightedTargets d us cs).isEmpty = true
      · have hnil : weightedTargets d us cs = [] := by
          simpa [List.isEmpty_iff] using he
        unfold weightedTargets at hnil
        rw [List.append_eq_nil] at hnil
        exact ⟨(weightedUrinalTargets_eq_nil d us 0).mp hnil.1,
          (weightedCubicleTargets_eq_nil cs 0).mp hnil.2⟩
      · rw [if_neg he] at hnone
        exfalso
        have hlen : 0 < (weightedTargets d us cs).length := by
          cases hw : weightedTargets d us cs
          · simp [hw] at he
          · simp [hw]
        have hm : draw % (weightedTargets d us cs).length <
            (weightedTargets d us cs).length := Nat.mod_lt _ hlen
        rw [List.get?_eq_none] at hnone
        omega
    · intro hboth
      have hnil : weightedTargets d us cs = [] := by
        unfold weightedTargets
        rw [List.append_eq_nil]
        exact ⟨(weightedUrinalTargets_eq_nil d us 0).mpr hboth.1,
          (weightedCubicleTargets_eq_nil cs 0).mpr hboth.2⟩
      rw [if_pos (by simp [hnil])]
  · intro d draw us cs hne
    unfold getWeightedOutOfOrderFacility
    rw [if_neg (by simp [List.isEmpty_iff, hne])]
  · intro d draw us cs tgt h
    unfold getWeightedOutOfOrderFacility at h
    by_cases he : (weightedTargets d us cs).isEmpty = true
    · rw [if_pos he] at h
      cases h
    · rw [if_neg he] at h
      exact List.get?_mem h

/-- C10 witness: with one free urinal (1-based number 1, odd) at
difficulty 1 and no cubicles, the weighted list is that single slot with
weight 1 and the draw returns it. -/
theorem disruption_target_weighting_witness :
    getWeightedOutOfOrderFacility 1 0 [exUrinal2] [] =
      (weightedTargets 1 [exUrinal2] []).get?
        (0 % (weightedTargets 1 [exUrinal2] []).length) :=
  disruption_target_weighting.2.2.2.2.1 1 0 [exUrinal2] [] (by decide)
